import Mathlib

/-!
Verification development for the BookDistill parsing subsystem.

The definitions below are a shallow embedding of the repository's
format-detection and extraction pipeline:

* `src/types.ts` — `FileFormat`, `ParseResult`, `ParseError`;
* `src/services/parsers/epubParser.ts` — `EpubParser`;
* `src/services/parsers/markdownParser.ts` — `MarkdownParser`;
* `src/services/parsers/pdfParser.ts` — `PdfParser`;
* `src/services/epubService.ts` — `ParserFactory` (register, detectFormat,
  getParser, parseFile).

External collaborators (the zip reader and the XML/HTML document reader)
are modelled as data: a zip archive is a list of path/content entries, and
the DOM parser is an oracle function producing the query results the code
reads (`XDoc`), respectively the flattened body text of an HTML chapter.
JavaScript string idioms (falsiness of the empty string, `\s+` collapsing,
`trim`, `replace` with a string or regex pattern, `Map.set`) are modelled
character-exactly for the ASCII range.
-/

namespace BookDistill

/-- `FileFormat` enum from `src/types.ts`. -/
inductive FileFormat where
  | epub
  | md
  | pdf
  | docx
  | txt
deriving DecidableEq, Repr

/-- The string value of each enum member (`EPUB = 'epub'`, `MARKDOWN = 'md'`, ...). -/
def FileFormat.value : FileFormat → String
  | .epub => "epub"
  | .md => "md"
  | .pdf => "pdf"
  | .docx => "docx"
  | .txt => "txt"

/-- Errors raised by the pipeline: a plain `Error` or a `ParseError`
(message, format tag, optional wrapped cause), from `src/types.ts`. -/
inductive Err where
  | error (message : String)
  | parseError (message : String) (format : FileFormat) (cause : Option Err)
deriving Repr

/-- The `.message` property of an error. -/
def Err.message : Err → String
  | .error m => m
  | .parseError m _ _ => m

/-- `ParseResult` from `src/types.ts`. -/
structure ParseResult where
  text : String
  title : String
  author : Option String
  format : FileFormat
deriving Repr

/-- An input file: its name, its decoded text content (what `FileReader`
yields for the Markdown path) and its zip entries (what `JSZip` yields for
the EPUB path), each entry being a path paired with its decoded text. -/
structure File where
  name : String
  content : String
  entries : List (String × String)

/-- JavaScript `\s` on the ASCII range (space, tab, newline, carriage
return, vertical tab, form feed). -/
def jsIsSpace (c : Char) : Bool :=
  c == ' ' || c == '\t' || c == '\n' || c == '\r' || c == '\x0b' || c == '\x0c'

/-- One pass of `replace(/\s+/g, ' ')`: each maximal whitespace run becomes
a single space.  The boolean records whether the previous character was
part of a whitespace run. -/
def squeeze : List Char → Bool → List Char
  | [], _ => []
  | c :: cs, prev =>
    if jsIsSpace c then
      if prev then squeeze cs true else ' ' :: squeeze cs true
    else c :: squeeze cs false

/-- JS `text.replace(/\s+/g, ' ')`. -/
def collapseWs (s : String) : String := String.mk (squeeze s.data false)

/-- JS `String.prototype.trim` on a character list. -/
def jsTrimList (l : List Char) : List Char :=
  ((l.dropWhile jsIsSpace).reverse.dropWhile jsIsSpace).reverse

/-- JS `String.prototype.trim`. -/
def jsTrim (s : String) : String := String.mk (jsTrimList s.data)

/-- Remove the first (leftmost) occurrence of `pat` from a character list;
the list is unchanged when `pat` does not occur. -/
def removeFirst (pat : List Char) : List Char → List Char
  | [] => []
  | c :: cs =>
    if pat.isPrefixOf (c :: cs) then (c :: cs).drop pat.length
    else c :: removeFirst pat cs

/-- JS `s.replace(pat, '')` with a plain-string pattern: removes the first
occurrence only.  Used for `file.name.replace('.epub', '')`. -/
def replaceFirst (s pat : String) : String := String.mk (removeFirst pat.data s.data)

/-- JS `String.prototype.toLowerCase` on the ASCII range. -/
def jsToLower (s : String) : String := String.mk (s.data.map Char.toLower)

/-- JS `String.prototype.endsWith`. -/
def strEndsWith (s suffixStr : String) : Bool := suffixStr.data.isSuffixOf s.data

/-- JS `name.replace(/\.md(arkdown)?$/, '')`: the regex strips a trailing
`.md` or `.mdarkdown` (case-sensitively); it does not match `.markdown`. -/
def stripMdExt (name : String) : String :=
  if strEndsWith name ".mdarkdown" then String.mk (name.data.take (name.data.length - 10))
  else if strEndsWith name ".md" then String.mk (name.data.take (name.data.length - 3))
  else name

/-- Result of parsing a package/container document with `DOMParser`
(`text/xml`): exactly the query results the EPUB parser reads.
`rootfileFullPath` is `querySelector("rootfile")?.getAttribute("full-path")`;
`metadataTitle` / `metadataCreator` are the `?.textContent` of the first
`metadata > title` / `metadata > creator` element; `manifestItems` lists the
(`id` attribute, `href` attribute) of every `manifest > item`;
`spineItemrefs` lists the `idref` attribute of every `spine > itemref`.
A `none` attribute models `getAttribute` returning `null`. -/
structure XDoc where
  rootfileFullPath : Option String := none
  metadataTitle : Option String := none
  metadataCreator : Option String := none
  manifestItems : List (Option String × Option String) := []
  spineItemrefs : List (Option String) := []
deriving Repr, Inhabited

/-- The fixed bootstrap path inside an EPUB archive. -/
def containerPath : String := "META-INF/container.xml"

/-- `loadedZip.file(path)?.async("string")`: look up a zip entry by path. -/
def zipLookup (entries : List (String × String)) (path : String) : Option String :=
  (entries.find? (fun e => e.1 == path)).map (fun e => e.2)

/-- JS `Map.set` on an insertion-ordered association list: update the first
binding of the key in place, else append a new binding. -/
def mapSet : List (String × String) → String → String → List (String × String)
  | [], k, v => [(k, v)]
  | e :: m, k, v => if e.1 == k then (k, v) :: m else e :: mapSet m k v

/-- JS `Map.get` on the association list. -/
def mapGet (m : List (String × String)) (k : String) : Option String :=
  (m.find? (fun e => e.1 == k)).map (fun e => e.2)

/-- One step of building the manifest map:
`manifestMap.set(item.getAttribute("id") || "", item.getAttribute("href") || "")`. -/
def manifestStep (m : List (String × String)) (it : Option String × Option String) :
    List (String × String) :=
  mapSet m (it.1.getD "") (it.2.getD "")

/-- The manifest map (id to href) built from all `manifest > item` elements. -/
def buildManifest (items : List (Option String × Option String)) : List (String × String) :=
  items.foldl manifestStep []

/-- JS `opfPath.substring(0, opfPath.lastIndexOf('/'))` (empty when the
path has no slash, since `substring(0, -1)` is the empty string). -/
def opfFolderOf (p : String) : String :=
  match p.data.reverse.span (fun c => c != '/') with
  | (_, []) => ""
  | (_, _ :: rest) => String.mk rest.reverse

/-- `resolvePath` from the EPUB parser: hrefs are relative to the folder of
the package document. -/
def resolvePath (folder href : String) : String :=
  if folder = "" then href else folder ++ "/" ++ href

/-- One iteration of the spine loop of `EpubParser.parse`: a missing or
falsy `idref`, a missing or falsy manifest `href`, and a missing or falsy
archive entry are each skipped; otherwise the chapter's flattened body text
(provided by the HTML reader oracle `html`) is whitespace-collapsed,
trimmed, and appended with a two-newline paragraph separator. -/
def spineStep (html : String → String) (entries : List (String × String)) (folder : String)
    (manifest : List (String × String)) (acc : String) (idref? : Option String) : String :=
  match idref? with
  | none => acc
  | some idref =>
    if idref = "" then acc
    else
      match mapGet manifest idref with
      | none => acc
      | some href =>
        if href = "" then acc
        else
          match zipLookup entries (resolvePath folder href) with
          | none => acc
          | some content =>
            if content = "" then acc
            else acc ++ jsTrim (collapseWs (html content)) ++ "\n\n"

/-- The accumulated text of the whole spine, in spine order. -/
def spineText (html : String → String) (entries : List (String × String)) (folder : String)
    (manifest : List (String × String)) (spine : List (Option String)) : String :=
  spine.foldl (spineStep html entries folder manifest) ""

/-- The body of the `try` block of `EpubParser.parse`
(`src/services/parsers/epubParser.ts`), with the `DOMParser` modelled by the
oracle `xml` (package/container documents) and `html` (chapter body text).
A `!value` falsiness test on a string in the source corresponds to a check
against `none` together with a check against the empty string. -/
def EpubParser.parseCore (xml : String → XDoc) (html : String → String) (file : File) :
    Except Err ParseResult :=
  match zipLookup file.entries containerPath with
  | none => .error (.error "Invalid EPUB: Missing container.xml")
  | some cxml =>
    if cxml = "" then .error (.error "Invalid EPUB: Missing container.xml")
    else
      match (xml cxml).rootfileFullPath with
      | none => .error (.error "Invalid EPUB: Cannot find OPF path")
      | some opfPath =>
        if opfPath = "" then .error (.error "Invalid EPUB: Cannot find OPF path")
        else
          match zipLookup file.entries opfPath with
          | none => .error (.error "Invalid EPUB: OPF file missing")
          | some opfContent =>
            if opfContent = "" then .error (.error "Invalid EPUB: OPF file missing")
            else
              let opfDoc := xml opfContent
              let title :=
                match opfDoc.metadataTitle with
                | some t => if t = "" then replaceFirst file.name ".epub" else t
                | none => replaceFirst file.name ".epub"
              let author : Option String :=
                match opfDoc.metadataCreator with
                | some a => if a = "" then none else some a
                | none => none
              .ok
                { text := spineText html file.entries (opfFolderOf opfPath)
                    (buildManifest opfDoc.manifestItems) opfDoc.spineItemrefs
                  title := title
                  author := author
                  format := .epub }

/-- `EpubParser.parse`: the `try`/`catch` wrapper turning any internal
error into `ParseError("EPUB parsing failed: " + message, epub, cause)`. -/
def EpubParser.parse (xml : String → XDoc) (html : String → String) (file : File) :
    Except Err ParseResult :=
  match EpubParser.parseCore xml html file with
  | .ok r => .ok r
  | .error e => .error (.parseError ("EPUB parsing failed: " ++ e.message) .epub (some e))

/-- Split a character list at every `\n` or `\r`, the line boundaries the
JS `m`-flag anchors `^`/`$` recognise (for input restricted to these two
terminators). -/
def splitLines : List Char → List (List Char)
  | [] => [[]]
  | c :: cs =>
    if c == '\n' || c == '\r' then [] :: splitLines cs
    else
      match splitLines cs with
      | [] => [[c]]
      | l :: ls => (c :: l) :: ls

/-- `frontmatter.match(/^key:\s*(.+)$/m)` followed by `[1].trim()`: the
first line starting with `key` and having a nonempty remainder yields that
remainder trimmed (the interaction of greedy `\s*`, the `.+` requiring at
least one character, and the final `trim()` makes the value exactly the
trimmed nonempty remainder; a line with an empty remainder does not match
and the scan continues). -/
def metaValue (key : List Char) (fm : List Char) : Option String :=
  (splitLines fm).findSome? (fun L =>
    match key.isPrefixOf? L with
    | some rest => if rest.isEmpty then none else some (String.mk (jsTrimList rest))
    | none => none)

/-- All splits of a leading whitespace run at a `\n`: the returned tails
are the suffixes after `A ++ "\n"` for every whitespace-only prefix `A`
followed by a newline, ordered by increasing length of `A`. -/
def nlTails : List Char → List (List Char)
  | [] => []
  | c :: cs =>
    if jsIsSpace c then
      (if c == '\n' then [cs] else []) ++ nlTails cs
    else []

/-- Match `\s*\n` greedily at the start of `r` (the closing part of the
frontmatter regex after `---`): succeeds iff the maximal whitespace prefix
of `r` contains a newline, consuming through the last such newline;
returns the remaining characters (capture group 2). -/
def afterDashes (r : List Char) : Option (List Char) :=
  match (r.takeWhile jsIsSpace).reverse.span (fun c => c != '\n') with
  | (_, []) => none
  | (a, _ :: _) => some (a.reverse ++ r.dropWhile jsIsSpace)

/-- Match the lazy group and closing delimiter `([\s\S]*?)\n---\s*\n([\s\S]*)$`:
scan left to right for the first occurrence of `\n---` whose following
`\s*\n` succeeds, returning (group 1, group 2). -/
def scanG1 : List Char → Option (List Char × List Char)
  | [] => none
  | c :: cs =>
    if c == '\n' && ['-', '-', '-'].isPrefixOf cs then
      match afterDashes (cs.drop 3) with
      | some g2 => some ([], g2)
      | none => (scanG1 cs).map (fun p => (c :: p.1, p.2))
    else (scanG1 cs).map (fun p => (c :: p.1, p.2))

/-- The frontmatter regex `/^---\s*\n([\s\S]*?)\n---\s*\n([\s\S]*)$/` of
`MarkdownParser.parseFrontmatter`, with backtracking priorities made
explicit: the opening `\s*` is greedy (longest whitespace prefix ending in
a newline first), the group is lazy, the closing `\s*` is greedy. -/
def matchFM (l : List Char) : Option (List Char × List Char) :=
  if ['-', '-', '-'].isPrefixOf l then
    ((nlTails (l.drop 3)).reverse).findSome? scanG1
  else none

/-- `MarkdownParser.parseFrontmatter`: returns (content, title?, author?).
Without a frontmatter match the whole text is the content, untrimmed; with
a match the content is the remainder trimmed and the metadata lines are
extracted from group 1. -/
def parseFrontmatter (text : String) : String × Option String × Option String :=
  match matchFM text.data with
  | none => (text, none, none)
  | some (g1, g2) =>
    (jsTrim (String.mk g2),
     metaValue ['t', 'i', 't', 'l', 'e', ':'] g1,
     metaValue ['a', 'u', 't', 'h', 'o', 'r', ':'] g1)

/-- `MarkdownParser.parse`: the file content is split by
`parseFrontmatter`; the title falls back (through JS `||`, hence also on
the empty string) to the name with the `/\.md(arkdown)?$/` replacement
applied; the author is taken as-is. -/
def MarkdownParser.parse (file : File) : Except Err ParseResult :=
  let r := parseFrontmatter file.content
  .ok
    { text := r.1
      title :=
        match r.2.1 with
        | some t => if t = "" then stripMdExt file.name else t
        | none => stripMdExt file.name
      author := r.2.2
      format := .md }

/-- `PdfParser.parse`: always fails. -/
def PdfParser.parse (_file : File) : Except Err ParseResult :=
  .error (.parseError "PDF parsing is not yet implemented. Coming soon!" .pdf none)

/-- A registered parser: format tag, capability extensions, `canParse`,
`parse` (`BookParser` in `src/types.ts`). -/
structure BookParser where
  format : FileFormat
  extensions : List String
  canParse : File → Bool
  parse : File → Except Err ParseResult

/-- The `EpubParser` instance (closing over the document-reader oracles). -/
def epubParser (xml : String → XDoc) (html : String → String) : BookParser :=
  { format := .epub
    extensions := ["epub"]
    canParse := fun f => strEndsWith (jsToLower f.name) ".epub"
    parse := EpubParser.parse xml html }

/-- The `MarkdownParser` instance. -/
def markdownParser : BookParser :=
  { format := .md
    extensions := ["md", "markdown"]
    canParse := fun f =>
      strEndsWith (jsToLower f.name) ".md" || strEndsWith (jsToLower f.name) ".markdown"
    parse := MarkdownParser.parse }

/-- The `PdfParser` instance. -/
def pdfParser : BookParser :=
  { format := .pdf
    extensions := ["pdf"]
    canParse := fun f => strEndsWith (jsToLower f.name) ".pdf"
    parse := PdfParser.parse }

/-- `ParserFactory.register`: `Map.set` keyed on the parser's format —
an existing entry is overwritten in place, a new one is appended. -/
def register (ps : List BookParser) (p : BookParser) : List BookParser :=
  if ps.any (fun q => q.format == p.format) then
    ps.map (fun q => if q.format == p.format then p else q)
  else ps ++ [p]

/-- `ParserFactory.registerDefaultParsers`: only the EPUB and Markdown
parsers are registered (the PDF parser registration is left as a comment
in the source). -/
def defaultParsers (xml : String → XDoc) (html : String → String) : List BookParser :=
  register (register [] (epubParser xml html)) markdownParser

/-- `ParserFactory.detectFormat`: the format of the first registered
parser whose `canParse` accepts the file. -/
def detectFormat (ps : List BookParser) (file : File) : Option FileFormat :=
  (ps.find? (fun p => p.canParse file)).map (fun p => p.format)

/-- `ParserFactory.getParser`. -/
def getParser (ps : List BookParser) (fmt : FileFormat) : Option BookParser :=
  ps.find? (fun p => p.format == fmt)

/-- `ParserFactory.parseFile`: detection, routing, and re-wrapping of any
parser error into a `ParseError` carrying the format and the original
error as cause.  Detection failure is reported with the default format
`epub`. -/
def parseFile (ps : List BookParser) (file : File) : Except Err ParseResult :=
  match detectFormat ps file with
  | none => .error (.parseError ("Unsupported file format: " ++ file.name) .epub none)
  | some fmt =>
    match getParser ps fmt with
    | none => .error (.parseError ("No parser available for format: " ++ fmt.value) fmt none)
    | some p =>
      match p.parse file with
      | .ok r => .ok r
      | .error e =>
        .error (.parseError ("Failed to parse " ++ fmt.value ++ " file: " ++ e.message) fmt
          (some e))

/-- Trivial document-reader oracle used in concrete instances. -/
def wXml0 : String → XDoc := fun _ => {}

/-- Trivial HTML-reader oracle used in concrete instances. -/
def wHtml0 : String → String := fun _ => ""

/-- Container document of the sample EPUB. -/
def sampleXml : String → XDoc := fun s =>
  if s = "CX" then { rootfileFullPath := some "OEBPS/content.opf" }
  else if s = "OPF" then
    { metadataTitle := some "Sample Book"
      metadataCreator := some "Jane Doe"
      manifestItems := [(some "c1", some "ch1.xhtml"), (some "c2", some "ch2.xhtml")]
      spineItemrefs := [some "c1", some "c2"] }
  else {}

/-- HTML reader of the sample EPUB: chapter body texts. -/
def sampleHtml : String → String := fun s =>
  if s = "D1" then "Hello" else if s = "D2" then "World" else ""

/-- Zip entries of the sample EPUB. -/
def sampleEntries : List (String × String) :=
  [("META-INF/container.xml", "CX"), ("OEBPS/content.opf", "OPF"),
   ("OEBPS/ch1.xhtml", "D1"), ("OEBPS/ch2.xhtml", "D2")]

/-- The sample EPUB file. -/
def sampleEpub : File := { name := "sample.epub", content := "", entries := sampleEntries }

/-- A `.pdf`-named file, used as a concrete instance. -/
def pdfFile : File := { name := "doc.pdf", content := "", entries := [] }

/-- A frontmatter-less markdown file with surrounding whitespace. -/
def mdSpacedFile : File := { name := "a.md", content := " Hello ", entries := [] }

/-- A `.markdown`-named file with plain content. -/
def markdownExtFile : File := { name := "book.markdown", content := "Body", entries := [] }

/-- A plain markdown file without frontmatter. -/
def mdPlainFile : File := { name := "a.md", content := "hi", entries := [] }

/-- A file of unregistered format. -/
def docxFile : File := { name := "a.docx", content := "", entries := [] }

/-- An EPUB-named file with an empty archive. -/
def emptyEpubFile : File := { name := "x.epub", content := "", entries := [] }

/-! ## Helper lemmas -/

theorem defaultParsers_eq (xml : String → XDoc) (html : String → String) :
    defaultParsers xml html = [epubParser xml html, markdownParser] := rfl

theorem spineText_insert (html : String → String) (entries : List (String × String))
    (folder : String) (manifest : List (String × String)) (l1 l2 : List (Option String))
    (bad : Option String)
    (h : ∀ acc, spineStep html entries folder manifest acc bad = acc) :
    spineText html entries folder manifest (l1 ++ bad :: l2) =
      spineText html entries folder manifest (l1 ++ l2) := by
  unfold spineText
  rw [List.foldl_append, List.foldl_cons, h, ← List.foldl_append]

theorem mapGet_mapSet_self (m : List (String × String)) (k v : String) :
    mapGet (mapSet m k v) k = some v := by
  induction m with
  | nil => simp [mapSet, mapGet]
  | cons e m ih =>
    by_cases h : e.1 == k
    · simp [mapSet, h, mapGet]
    · simpa [mapSet, h, mapGet] using ih

end BookDistill

namespace BookDistill

/-! ## Claims -/

/-- C2 counterexample: with the default registration, the `.pdf` file is
not routed to the PDF stub — `parseFile` fails with the registry-level
format-unrecognized `ParseError` tagged `epub`, and the `pdf` format is not
among the registered formats at all. -/
theorem C2_counterexample :
    parseFile (defaultParsers wXml0 wHtml0) pdfFile =
      .error (.parseError "Unsupported file format: doc.pdf" .epub none) ∧
    (defaultParsers wXml0 wHtml0).map (fun p => p.format) = [FileFormat.epub, FileFormat.md] ∧
    FileFormat.pdf ∉ (defaultParsers wXml0 wHtml0).map (fun p => p.format) :=
  ⟨rfl, rfl, by decide⟩

/-- C2 (amended): the PDF parser stub recognizes `.pdf` names via
`canParse` and its `parse` always fails with a `ParseError` tagged `pdf`
saying PDF parsing is not yet implemented; but the stub is not registered
in the default registry, so `parseFile` on a `.pdf` file fails with the
registry-level `ParseError` tagged with the default format `epub`. -/
theorem C2_pdf_stub_unregistered (xml : String → XDoc) (html : String → String) (f : File)
    (hpdf : strEndsWith (jsToLower f.name) ".pdf" = true)
    (hepub : strEndsWith (jsToLower f.name) ".epub" = false)
    (hmd : strEndsWith (jsToLower f.name) ".md" = false)
    (hmarkdown : strEndsWith (jsToLower f.name) ".markdown" = false) :
    pdfParser.canParse f = true ∧
    pdfParser.parse f =
      .error (.parseError "PDF parsing is not yet implemented. Coming soon!" .pdf none) ∧
    parseFile (defaultParsers xml html) f =
      .error (.parseError ("Unsupported file format: " ++ f.name) .epub none) := by
  refine ⟨by simpa [pdfParser] using hpdf, rfl, ?_⟩
  simp [parseFile, detectFormat, defaultParsers, register, epubParser, markdownParser,
    hepub, hmd, hmarkdown]

/-- C2 witness: the amended statement at the concrete file `doc.pdf`. -/
theorem C2_witness :
    pdfParser.canParse pdfFile = true ∧
    pdfParser.parse pdfFile =
      .error (.parseError "PDF parsing is not yet implemented. Coming soon!" .pdf none) ∧
    parseFile (defaultParsers wXml0 wHtml0) pdfFile =
      .error (.parseError ("Unsupported file format: " ++ pdfFile.name) .epub none) :=
  C2_pdf_stub_unregistered wXml0 wHtml0 pdfFile (by decide) (by decide) (by decide) (by decide)

/-- C3 counterexample: for the `.md` file with content `" Hello "` and no
frontmatter, `parseFile` returns the content untrimmed, which differs from
the trimmed content the claim requires. -/
theorem C3_counterexample :
    parseFile (defaultParsers wXml0 wHtml0) mdSpacedFile =
      .ok { text := " Hello ", title := "a", author := none, format := .md } ∧
    jsTrim " Hello " = "Hello" ∧ (" Hello " : String) ≠ "Hello" :=
  ⟨rfl, rfl, by decide⟩

/-- C3 (amended): for every file whose name ends case-insensitively in
`.md` whose content has no frontmatter block at the very start, `parseFile`
returns text equal to the full original content unchanged (not trimmed),
title equal to the file's name with a trailing literal `.md` (or
`.mdarkdown`) stripped, and no author. -/
theorem C3_md_no_frontmatter (xml : String → XDoc) (html : String → String)
    (name content : String) (entries : List (String × String))
    (hmd : strEndsWith (jsToLower name) ".md" = true)
    (hepub : strEndsWith (jsToLower name) ".epub" = false)
    (hfm : matchFM content.data = none) :
    parseFile (defaultParsers xml html) { name := name, content := content, entries := entries } =
      .ok { text := content, title := stripMdExt name, author := none, format := .md } := by
  simp [parseFile, detectFormat, defaultParsers, register, epubParser, markdownParser,
    hmd, hepub, getParser, MarkdownParser.parse, parseFrontmatter, hfm]

/-- C3 witness: the amended statement at the concrete file `a.md` with
content `"hi"`. -/
theorem C3_witness :
    parseFile (defaultParsers wXml0 wHtml0) mdPlainFile =
      .ok { text := "hi", title := stripMdExt "a.md", author := none, format := .md } :=
  C3_md_no_frontmatter wXml0 wHtml0 "a.md" "hi" [] (by decide) (by decide) rfl

/-- C4: evaluating the code at the failing input — a `.markdown` file with
no frontmatter title is accepted by the Markdown parser, but the
title-fallback regex `/\.md(arkdown)?$/` fails to strip the `.markdown`
extension, so the returned title keeps it, contradicting the claim. -/
theorem C4_markdown_extension_bug :
    parseFile (defaultParsers wXml0 wHtml0) markdownExtFile =
      .ok { text := "Body", title := "book.markdown", author := none, format := .md } ∧
    stripMdExt "book.markdown" = "book.markdown" ∧
    markdownParser.canParse markdownExtFile = true ∧
    stripMdExt "a.md" = "a" :=
  ⟨rfl, rfl, rfl, rfl⟩

/-- C6: for every file whose name matches no registered extension,
`parseFile` fails with a `ParseError` tagged with the default format
`epub`, carrying a message naming the unsupported file, and never returns
a result. -/
theorem C6_unsupported_format (xml : String → XDoc) (html : String → String) (f : File)
    (hepub : strEndsWith (jsToLower f.name) ".epub" = false)
    (hmd : strEndsWith (jsToLower f.name) ".md" = false)
    (hmarkdown : strEndsWith (jsToLower f.name) ".markdown" = false) :
    parseFile (defaultParsers xml html) f =
      .error (.parseError ("Unsupported file format: " ++ f.name) .epub none) := by
  simp [parseFile, detectFormat, defaultParsers, register, epubParser, markdownParser,
    hepub, hmd, hmarkdown]

/-- C6 witness: the statement at the concrete file `a.docx`. -/
theorem C6_witness :
    parseFile (defaultParsers wXml0 wHtml0) docxFile =
      .error (.parseError ("Unsupported file format: " ++ docxFile.name) .epub none) :=
  C6_unsupported_format wXml0 wHtml0 docxFile (by decide) (by decide) (by decide)

/-- C9: for every EPUB archive lacking the `META-INF/container.xml`
descriptor, `EpubParser.parse` fails with a `ParseError` tagged `epub`
whose message indicates the missing container descriptor and whose only
wrapped cause is the error reporting the missing descriptor. -/
theorem C9_missing_container (xml : String → XDoc) (html : String → String) (f : File)
    (h : zipLookup f.entries containerPath = none) :
    EpubParser.parse xml html f =
      .error (.parseError "EPUB parsing failed: Invalid EPUB: Missing container.xml" .epub
        (some (.error "Invalid EPUB: Missing container.xml"))) := by
  unfold EpubParser.parse EpubParser.parseCore
  rw [h]
  rfl

/-- C9 witness: the statement at the concrete empty archive `x.epub`. -/
theorem C9_witness :
    EpubParser.parse wXml0 wHtml0 emptyEpubFile =
      .error (.parseError "EPUB parsing failed: Invalid EPUB: Missing container.xml" .epub
        (some (.error "Invalid EPUB: Missing container.xml"))) :=
  C9_missing_container wXml0 wHtml0 emptyEpubFile rfl

/-- C5: `detectFormat` returns `f` exactly when the first registered
parser claiming the file (in registration order, all earlier parsers
rejecting it) has format `f`, and returns `none` exactly when no
registered parser claims the file. -/
theorem C5_detectFormat_first_claimant (ps : List BookParser) (file : File) :
    (∀ f, detectFormat ps file = some f ↔
        ∃ l1 p l2, ps = l1 ++ p :: l2 ∧ p.format = f ∧ p.canParse file = true ∧
          ∀ q ∈ l1, q.canParse file = false) ∧
    (detectFormat ps file = none ↔ ∀ p ∈ ps, p.canParse file = false) := by
  constructor
  · intro f
    unfold detectFormat
    rw [Option.map_eq_some']
    constructor
    · rintro ⟨p, hp, rfl⟩
      rw [List.find?_eq_some] at hp
      obtain ⟨hcp, as, bs, rfl, hall⟩ := hp
      exact ⟨as, p, bs, rfl, rfl, hcp, fun q hq => by simpa using hall q hq⟩
    · rintro ⟨l1, p, l2, rfl, rfl, hcp, hall⟩
      exact ⟨p, List.find?_eq_some.mpr ⟨hcp, l1, l2, rfl, fun q hq => by simp [hall q hq]⟩, rfl⟩
  · unfold detectFormat
    simp [List.find?_eq_none]

/-- C8: a spine itemref whose idref attribute is missing, or whose idref
has no entry in the manifest map, contributes nothing: inserting it
anywhere in the spine leaves the accumulated text unchanged (no error, no
empty paragraph separator). -/
theorem C8_dangling_itemref_skipped (html : String → String)
    (entries : List (String × String)) (folder : String)
    (manifest : List (String × String)) (l1 l2 : List (Option String)) (bad : Option String)
    (h : bad = none ∨ ∃ i, bad = some i ∧ mapGet manifest i = none) :
    spineText html entries folder manifest (l1 ++ bad :: l2) =
      spineText html entries folder manifest (l1 ++ l2) := by
  apply spineText_insert
  intro acc
  rcases h with h | ⟨i, hbad, hi⟩
  · subst h; rfl
  · subst hbad
    simp [spineStep, hi]

/-- C8 witness: a dangling itemref `ghost` between two entries of an empty
manifest contributes nothing. -/
theorem C8_witness :
    spineText wHtml0 [] "" [] ([some "a"] ++ some "ghost" :: [some "b"]) =
      spineText wHtml0 [] "" [] ([some "a"] ++ [some "b"]) :=
  C8_dangling_itemref_skipped wHtml0 [] "" [] [some "a"] [some "b"] (some "ghost")
    (Or.inr ⟨"ghost", rfl, rfl⟩)

/-- C10: a manifest item whose href attribute is missing or empty is
recorded in the manifest map under its id with an empty-string href, and a
spine itemref whose idref maps to an empty href is skipped exactly as if
the manifest entry were absent: nothing is appended for it. -/
theorem C10_empty_href_skipped (items : List (Option String × Option String))
    (idOpt hrefOpt : Option String) (i : String) (html : String → String)
    (entries : List (String × String)) (folder : String) (mm : List (String × String))
    (l1 l2 : List (Option String))
    (hid : idOpt = some i)
    (hhref : hrefOpt = none ∨ hrefOpt = some "")
    (hmm : mapGet mm i = some "") :
    mapGet (buildManifest (items ++ [(idOpt, hrefOpt)])) i = some "" ∧
    spineText html entries folder mm (l1 ++ some i :: l2) =
      spineText html entries folder mm (l1 ++ l2) := by
  constructor
  · subst hid
    have hstep : manifestStep (buildManifest items) (some i, hrefOpt) =
        mapSet (buildManifest items) i "" := by
      rcases hhref with h | h <;> subst h <;> rfl
    rw [buildManifest, List.foldl_append, List.foldl_cons, List.foldl_nil, ← buildManifest, hstep]
    exact mapGet_mapSet_self _ _ _
  · apply spineText_insert
    intro acc
    simp [spineStep, hmm]

/-- C1: for an EPUB file whose package document declares title
"Sample Book" and creator "Jane Doe" and whose spine has two itemrefs
resolving through the manifest to chapter documents with body text "Hello"
and "World", `parseFile` returns exactly
`{title: "Sample Book", author: "Jane Doe", text: "Hello\n\nWorld\n\n",
format: epub}`: each chapter's body text is whitespace-collapsed, trimmed,
and appended followed by a two-newline paragraph separator, in spine
order. -/
theorem C1_epub_end_to_end (xml : String → XDoc) (html : String → String)
    (name content cxml opfPath opfC id1 id2 h1 h2 d1 d2 : String)
    (entries : List (String × String))
    (hname : strEndsWith (jsToLower name) ".epub" = true)
    (hcx : zipLookup entries containerPath = some cxml) (hcx0 : cxml ≠ "")
    (hroot : (xml cxml).rootfileFullPath = some opfPath) (hop0 : opfPath ≠ "")
    (hopf : zipLookup entries opfPath = some opfC) (hopf0 : opfC ≠ "")
    (htitle : (xml opfC).metadataTitle = some "Sample Book")
    (hcreator : (xml opfC).metadataCreator = some "Jane Doe")
    (hman : (xml opfC).manifestItems = [(some id1, some h1), (some id2, some h2)])
    (hspine : (xml opfC).spineItemrefs = [some id1, some id2])
    (hid1 : id1 ≠ "") (hid2 : id2 ≠ "") (hne : id1 ≠ id2)
    (hh1 : h1 ≠ "") (hh2 : h2 ≠ "")
    (hc1 : zipLookup entries (resolvePath (opfFolderOf opfPath) h1) = some d1) (hd1 : d1 ≠ "")
    (hc2 : zipLookup entries (resolvePath (opfFolderOf opfPath) h2) = some d2) (hd2 : d2 ≠ "")
    (hb1 : html d1 = "Hello") (hb2 : html d2 = "World") :
    parseFile (defaultParsers xml html) { name := name, content := content, entries := entries } =
      .ok { text := "Hello\n\nWorld\n\n", title := "Sample Book", author := some "Jane Doe",
            format := .epub } := by
  simp [parseFile, detectFormat, defaultParsers, register, epubParser, markdownParser,
    hname, getParser, EpubParser.parse, EpubParser.parseCore, hcx, hcx0, hroot, hop0, hopf,
    hopf0, htitle, hcreator, hman, hspine, buildManifest, manifestStep, mapSet, spineText,
    spineStep, mapGet, hid1, hid2, hne, Ne.symm hne, hh1, hh2, hc1, hc2, hd1, hd2, hb1, hb2]
  rfl

/-- C1 witness: the statement at the concrete sample EPUB. -/
theorem C1_witness :
    parseFile (defaultParsers sampleXml sampleHtml) sampleEpub =
      .ok { text := "Hello\n\nWorld\n\n", title := "Sample Book", author := some "Jane Doe",
            format := .epub } :=
  C1_epub_end_to_end sampleXml sampleHtml "sample.epub" "" "CX" "OEBPS/content.opf" "OPF"
    "c1" "c2" "ch1.xhtml" "ch2.xhtml" "D1" "D2" sampleEntries
    (by decide) rfl (by decide) rfl (by decide) rfl (by decide) rfl rfl rfl rfl
    (by decide) (by decide) (by decide) (by decide) (by decide)
    rfl (by decide) rfl (by decide) rfl rfl

theorem jsTrimList_ws_leading (w l : List Char) (h : ∀ c ∈ w, jsIsSpace c = true) :
    jsTrimList (w ++ l) = jsTrimList l := by
  unfold jsTrimList
  rw [List.dropWhile_append_of_pos h]

theorem jsTrimList_dropWhile (l : List Char) :
    jsTrimList (l.dropWhile jsIsSpace) = jsTrimList l := by
  conv_rhs => rw [← List.takeWhile_append_dropWhile (p := jsIsSpace) (l := l)]
  rw [jsTrimList_ws_leading]
  intro c hc
  exact List.mem_takeWhile_imp hc

theorem afterDashes_nl (m : List Char) :
    ∃ g, afterDashes ('\n' :: m) = some g ∧ jsTrimList g = jsTrimList m := by
  rcases hs : (('\n' :: m).takeWhile jsIsSpace).reverse.span (fun c => c != '\n') with ⟨a, b⟩
  have hspan := List.span_eq_take_drop (p := fun c => c != '\n')
    ((('\n' :: m).takeWhile jsIsSpace).reverse)
  rw [hs, Prod.mk.injEq] at hspan
  have hmemnl : '\n' ∈ (('\n' :: m).takeWhile jsIsSpace).reverse := by
    rw [List.mem_reverse, List.takeWhile_cons]
    simp [jsIsSpace]
  have hbne : b ≠ [] := by
    intro hnil
    rw [hspan.2, List.dropWhile_eq_nil_iff] at hnil
    simpa using hnil _ hmemnl
  obtain ⟨x, xs, rfl⟩ : ∃ x xs, b = x :: xs := by
    cases b with
    | nil => exact absurd rfl hbne
    | cons x xs => exact ⟨x, xs, rfl⟩
  refine ⟨a.reverse ++ ('\n' :: m).dropWhile jsIsSpace, ?_, ?_⟩
  · unfold afterDashes
    rw [hs]
  · have haws : ∀ c ∈ a.reverse, jsIsSpace c = true := by
      intro c hc
      rw [List.mem_reverse, hspan.1] at hc
      have hc2 : c ∈ (('\n' :: m).takeWhile jsIsSpace).reverse :=
        (List.takeWhile_sublist _).subset hc
      rw [List.mem_reverse] at hc2
      exact List.mem_takeWhile_imp hc2
    rw [jsTrimList_ws_leading _ _ haws]
    have hdw : ('\n' :: m).dropWhile jsIsSpace = m.dropWhile jsIsSpace := by
      rw [List.dropWhile_cons]
      simp [jsIsSpace]
    rw [hdw, jsTrimList_dropWhile]

theorem scanG1_append_clean (l r : List Char) (h : ∀ c ∈ l, ¬ c = '\n') :
    scanG1 (l ++ r) = (scanG1 r).map (fun p => (l ++ p.1, p.2)) := by
  induction l with
  | nil =>
    cases hr : scanG1 r <;> simp [hr]
  | cons c cs ih =>
    have hc : (c == '\n') = false := by
      simp [h c (by simp)]
    rw [List.cons_append, scanG1, hc]
    simp only [Bool.false_and, Bool.false_eq_true, if_false]
    rw [ih (fun x hx => h x (List.mem_cons_of_mem _ hx))]
    cases hr : scanG1 r <;> simp [hr]

theorem splitLines_clean (l : List Char) (h : ∀ c ∈ l, ¬ c = '\n' ∧ ¬ c = '\r') :
    splitLines l = [l] := by
  induction l with
  | nil => rfl
  | cons c cs ih =>
    have hc := h c (by simp)
    have hcond : (c == '\n' || c == '\r') = false := by
      simp [hc.1, hc.2]
    rw [splitLines, hcond]
    simp only [Bool.false_eq_true, if_false]
    rw [ih (fun x hx => h x (List.mem_cons_of_mem _ hx))]

theorem splitLines_append_nl (l r : List Char) (h : ∀ c ∈ l, ¬ c = '\n' ∧ ¬ c = '\r') :
    splitLines (l ++ '\n' :: r) = l :: splitLines r := by
  induction l with
  | nil =>
    rw [List.nil_append, splitLines]
    simp
  | cons c cs ih =>
    have hc := h c (by simp)
    have hcond : (c == '\n' || c == '\r') = false := by
      simp [hc.1, hc.2]
    rw [List.cons_append, splitLines, hcond]
    simp only [Bool.false_eq_true, if_false]
    rw [ih (fun x hx => h x (List.mem_cons_of_mem _ hx))]

theorem metaValue_two_lines (X Y : List Char)
    (hX : ∀ c ∈ X, ¬ c = '\n' ∧ ¬ c = '\r') (hY : ∀ c ∈ Y, ¬ c = '\n' ∧ ¬ c = '\r') :
    metaValue ['t', 'i', 't', 'l', 'e', ':']
        ((['t', 'i', 't', 'l', 'e', ':', ' '] ++ X) ++
          '\n' :: (['a', 'u', 't', 'h', 'o', 'r', ':', ' '] ++ Y)) =
      some (String.mk (jsTrimList X)) ∧
    metaValue ['a', 'u', 't', 'h', 'o', 'r', ':']
        ((['t', 'i', 't', 'l', 'e', ':', ' '] ++ X) ++
          '\n' :: (['a', 'u', 't', 'h', 'o', 'r', ':', ' '] ++ Y)) =
      some (String.mk (jsTrimList Y)) := by
  have hcleanT : ∀ c ∈ ['t', 'i', 't', 'l', 'e', ':', ' '] ++ X, ¬ c = '\n' ∧ ¬ c = '\r' := by
    intro c hc
    rcases List.mem_append.mp hc with hc | hc
    · fin_cases hc <;> simp
    · exact hX c hc
  have hcleanA : ∀ c ∈ ['a', 'u', 't', 'h', 'o', 'r', ':', ' '] ++ Y, ¬ c = '\n' ∧ ¬ c = '\r' := by
    intro c hc
    rcases List.mem_append.mp hc with hc | hc
    · fin_cases hc <;> simp
    · exact hY c hc
  have hsplit :
      splitLines ((['t', 'i', 't', 'l', 'e', ':', ' '] ++ X) ++
          '\n' :: (['a', 'u', 't', 'h', 'o', 'r', ':', ' '] ++ Y)) =
        [['t', 'i', 't', 'l', 'e', ':', ' '] ++ X, ['a', 'u', 't', 'h', 'o', 'r', ':', ' '] ++ Y] := by
    rw [splitLines_append_nl _ _ hcleanT, splitLines_clean _ hcleanA]
  have htrimX : jsTrimList (' ' :: X) = jsTrimList X := by
    rw [← List.singleton_append, jsTrimList_ws_leading]
    intro c hc
    simp at hc
    simp [hc, jsIsSpace]
  have htrimY : jsTrimList (' ' :: Y) = jsTrimList Y := by
    rw [← List.singleton_append, jsTrimList_ws_leading]
    intro c hc
    simp at hc
    simp [hc, jsIsSpace]
  constructor
  · unfold metaValue
    rw [hsplit]
    simp [List.findSome?, List.isPrefixOf?, htrimX]
  · unfold metaValue
    rw [hsplit]
    simp [List.findSome?, List.isPrefixOf?, htrimY]

theorem scanG1_cons_nl (cs : List Char) (h : (['-', '-', '-'].isPrefixOf cs) = false) :
    scanG1 ('\n' :: cs) = (scanG1 cs).map (fun p => ('\n' :: p.1, p.2)) := by
  rw [scanG1, h]
  simp

theorem matchFM_shape (X Y body : List Char)
    (hX : ∀ c ∈ X, ¬ c = '\n') (hY : ∀ c ∈ Y, ¬ c = '\n') :
    ∃ g2,
      matchFM ('-' :: '-' :: '-' :: '\n' :: 't' :: 'i' :: 't' :: 'l' :: 'e' :: ':' :: ' ' ::
          (X ++ '\n' :: 'a' :: 'u' :: 't' :: 'h' :: 'o' :: 'r' :: ':' :: ' ' ::
            (Y ++ '\n' :: '-' :: '-' :: '-' :: '\n' :: body))) =
        some ((['t', 'i', 't', 'l', 'e', ':', ' '] ++ X) ++
          '\n' :: (['a', 'u', 't', 'h', 'o', 'r', ':', ' '] ++ Y), g2) ∧
      jsTrimList g2 = jsTrimList body := by
  obtain ⟨g, hg, hgtrim⟩ := afterDashes_nl body
  refine ⟨g, ?_, hgtrim⟩
  have hcleanT : ∀ c ∈ ['t', 'i', 't', 'l', 'e', ':', ' '] ++ X, ¬ c = '\n' := by
    intro c hc
    rcases List.mem_append.mp hc with hc | hc
    · fin_cases hc <;> simp
    · exact hX c hc
  have hcleanA : ∀ c ∈ ['a', 'u', 't', 'h', 'o', 'r', ':', ' '] ++ Y, ¬ c = '\n' := by
    intro c hc
    rcases List.mem_append.mp hc with hc | hc
    · fin_cases hc <;> simp
    · exact hY c hc
  have hclose : scanG1 ('\n' :: '-' :: '-' :: '-' :: '\n' :: body) = some ([], g) := by
    rw [scanG1]
    simp only [List.isPrefixOf, beq_self_eq_true, Bool.and_self, Bool.true_and, if_true]
    rw [show ('-' :: '-' :: '-' :: '\n' :: body).drop 3 = '\n' :: body from rfl, hg]
  have hauth :
      scanG1 ('a' :: 'u' :: 't' :: 'h' :: 'o' :: 'r' :: ':' :: ' ' ::
          (Y ++ '\n' :: '-' :: '-' :: '-' :: '\n' :: body)) =
        some (['a', 'u', 't', 'h', 'o', 'r', ':', ' '] ++ Y, g) := by
    rw [show ('a' :: 'u' :: 't' :: 'h' :: 'o' :: 'r' :: ':' :: ' ' ::
        (Y ++ '\n' :: '-' :: '-' :: '-' :: '\n' :: body)) =
      ((['a', 'u', 't', 'h', 'o', 'r', ':', ' '] ++ Y) ++
        ('\n' :: '-' :: '-' :: '-' :: '\n' :: body)) by simp]
    rw [scanG1_append_clean _ _ hcleanA, hclose]
    simp
  have hmid :
      scanG1 ('\n' :: 'a' :: 'u' :: 't' :: 'h' :: 'o' :: 'r' :: ':' :: ' ' ::
          (Y ++ '\n' :: '-' :: '-' :: '-' :: '\n' :: body)) =
        some ('\n' :: (['a', 'u', 't', 'h', 'o', 'r', ':', ' '] ++ Y), g) := by
    rw [scanG1_cons_nl _ (by simp [List.isPrefixOf]), hauth]
    simp
  have htitle :
      scanG1 ((['t', 'i', 't', 'l', 'e', ':', ' '] ++ X) ++
          ('\n' :: 'a' :: 'u' :: 't' :: 'h' :: 'o' :: 'r' :: ':' :: ' ' ::
            (Y ++ '\n' :: '-' :: '-' :: '-' :: '\n' :: body))) =
        some ((['t', 'i', 't', 'l', 'e', ':', ' '] ++ X) ++
          '\n' :: (['a', 'u', 't', 'h', 'o', 'r', ':', ' '] ++ Y), g) := by
    rw [scanG1_append_clean _ _ hcleanT, hmid]
    simp
  unfold matchFM
  simp only [List.isPrefixOf, beq_self_eq_true, Bool.and_self, Bool.true_and, if_true]
  rw [show ('-' :: '-' :: '-' :: '\n' :: 't' :: 'i' :: 't' :: 'l' :: 'e' :: ':' :: ' ' ::
      (X ++ '\n' :: 'a' :: 'u' :: 't' :: 'h' :: 'o' :: 'r' :: ':' :: ' ' ::
        (Y ++ '\n' :: '-' :: '-' :: '-' :: '\n' :: body))).drop 3 =
    '\n' :: 't' :: 'i' :: 't' :: 'l' :: 'e' :: ':' :: ' ' ::
      (X ++ '\n' :: 'a' :: 'u' :: 't' :: 'h' :: 'o' :: 'r' :: ':' :: ' ' ::
        (Y ++ '\n' :: '-' :: '-' :: '-' :: '\n' :: body)) from rfl]
  rw [nlTails]
  rw [show nlTails ('t' :: 'i' :: 't' :: 'l' :: 'e' :: ':' :: ' ' ::
      (X ++ '\n' :: 'a' :: 'u' :: 't' :: 'h' :: 'o' :: 'r' :: ':' :: ' ' ::
        (Y ++ '\n' :: '-' :: '-' :: '-' :: '\n' :: body))) = [] by
    rw [nlTails]; simp [jsIsSpace]]
  simp only [show jsIsSpace '\n' = true from rfl, if_true, beq_self_eq_true,
    List.append_nil, List.reverse_cons, List.reverse_nil, List.nil_append, List.findSome?]
  rw [show ('t' :: 'i' :: 't' :: 'l' :: 'e' :: ':' :: ' ' ::
      (X ++ '\n' :: 'a' :: 'u' :: 't' :: 'h' :: 'o' :: 'r' :: ':' :: ' ' ::
        (Y ++ '\n' :: '-' :: '-' :: '-' :: '\n' :: body))) =
    ((['t', 'i', 't', 'l', 'e', ':', ' '] ++ X) ++
      ('\n' :: 'a' :: 'u' :: 't' :: 'h' :: 'o' :: 'r' :: ':' :: ' ' ::
        (Y ++ '\n' :: '-' :: '-' :: '-' :: '\n' :: body))) by simp]
  rw [htitle]

theorem parseFrontmatter_shape (X Y body : String)
    (hX : ∀ c ∈ X.data, ¬ c = '\n' ∧ ¬ c = '\r')
    (hY : ∀ c ∈ Y.data, ¬ c = '\n' ∧ ¬ c = '\r') :
    parseFrontmatter ("---\ntitle: " ++ (X ++ ("\nauthor: " ++ (Y ++ ("\n---\n" ++ body))))) =
      (jsTrim body, some (jsTrim X), some (jsTrim Y)) := by
  obtain ⟨g, hm, hg⟩ := matchFM_shape X.data Y.data body.data
    (fun c hc => (hX c hc).1) (fun c hc => (hY c hc).1)
  obtain ⟨ht, ha⟩ := metaValue_two_lines X.data Y.data hX hY
  unfold parseFrontmatter
  rw [show ("---\ntitle: " ++ (X ++ ("\nauthor: " ++ (Y ++ ("\n---\n" ++ body))))).data =
    ('-' :: '-' :: '-' :: '\n' :: 't' :: 'i' :: 't' :: 'l' :: 'e' :: ':' :: ' ' ::
      (X.data ++ '\n' :: 'a' :: 'u' :: 't' :: 'h' :: 'o' :: 'r' :: ':' :: ' ' ::
        (Y.data ++ '\n' :: '-' :: '-' :: '-' :: '\n' :: body.data))) from rfl]
  rw [hm]
  show (jsTrim (String.mk g),
      metaValue ['t', 'i', 't', 'l', 'e', ':']
        ((['t', 'i', 't', 'l', 'e', ':', ' '] ++ X.data) ++
          '\n' :: (['a', 'u', 't', 'h', 'o', 'r', ':', ' '] ++ Y.data)),
      metaValue ['a', 'u', 't', 'h', 'o', 'r', ':']
        ((['t', 'i', 't', 'l', 'e', ':', ' '] ++ X.data) ++
          '\n' :: (['a', 'u', 't', 'h', 'o', 'r', ':', ' '] ++ Y.data))) =
    (jsTrim body, some (jsTrim X), some (jsTrim Y))
  rw [ht, ha, show jsTrim (String.mk g) = String.mk (jsTrimList g) from rfl, hg]
  rfl

/-- C7: for every file whose name ends case-insensitively in `.md` with a
well-formed frontmatter block containing lines `title: X` and `author: Y`
(the values single-line and already trimmed, the title nonempty),
`parseFile` returns title `X`, author `Y`, format markdown, and text equal
to the remainder after the closing `---` line with surrounding whitespace
trimmed. -/
theorem C7_md_frontmatter (xml : String → XDoc) (html : String → String)
    (name X Y body : String) (entries : List (String × String))
    (hmd : strEndsWith (jsToLower name) ".md" = true)
    (hepub : strEndsWith (jsToLower name) ".epub" = false)
    (hX : ∀ c ∈ X.data, ¬ c = '\n' ∧ ¬ c = '\r') (hXt : jsTrim X = X) (hX0 : X ≠ "")
    (hY : ∀ c ∈ Y.data, ¬ c = '\n' ∧ ¬ c = '\r') (hYt : jsTrim Y = Y) :
    parseFile (defaultParsers xml html)
        { name := name,
          content := "---\ntitle: " ++ (X ++ ("\nauthor: " ++ (Y ++ ("\n---\n" ++ body)))),
          entries := entries } =
      .ok { text := jsTrim body, title := X, author := some Y, format := .md } := by
  have hshape := parseFrontmatter_shape X Y body hX hY
  simp [parseFile, detectFormat, defaultParsers, register, epubParser, markdownParser, hmd,
    hepub, getParser, MarkdownParser.parse, hshape, hXt, hYt, hX0]

/-- C7 witness: the statement at a concrete frontmatter file. -/
theorem C7_witness :
    parseFile (defaultParsers wXml0 wHtml0)
        { name := "b.md",
          content := "---\ntitle: " ++ ("My Book" ++ ("\nauthor: " ++ ("Bob Smith" ++
            ("\n---\n" ++ "Body text")))),
          entries := [] } =
      .ok { text := jsTrim "Body text", title := "My Book", author := some "Bob Smith",
            format := .md } :=
  C7_md_frontmatter wXml0 wHtml0 "b.md" "My Book" "Bob Smith" "Body text" []
    (by decide) (by decide) (by decide) rfl (by decide) (by decide) rfl

/-- C10 witness: the statement at a concrete manifest and spine. -/
theorem C10_witness :
    mapGet (buildManifest ([(some "a", some "x.html")] ++ [(some "b", none)])) "b" = some "" ∧
    spineText wHtml0 [] "" [("b", "")] ([some "a"] ++ some "b" :: []) =
      spineText wHtml0 [] "" [("b", "")] ([some "a"] ++ []) :=
  C10_empty_href_skipped [(some "a", some "x.html")] (some "b") none "b" wHtml0 [] ""
    [("b", "")] [some "a"] [] rfl (Or.inl rfl) rfl

end BookDistill
